import Mathlib

/-!
Shallow embedding of the electricity-bill processor server handlers
(`upload_zip.ts`, `process_bill.ts`, the bill-result / batch-progress
handler, the SELIC bulk loader and `generate_report.ts`).

Conventions of the embedding:
* JavaScript numbers are modelled as exact rationals (`ℚ`); the repository
  only ever manipulates small decimal amounts and rates, and the string
  round-trips (`toString` / `parseFloat`) at the storage boundary are exact
  for such values.
* JavaScript `Date` values are modelled at day granularity as a
  year / month (0-based, as `Date.getMonth()` returns) / day-of-month
  triple; comparison of `Date` objects (timestamp order) is order-isomorphic
  to the `key` encoding below for normalized dates.
* The database is modelled as explicit lists of rows passed in and out of
  each handler; the process clock (`new Date()`) is an explicit parameter.
* Fallible handlers return `Except String`; a thrown JS error is `.error`.
-/

/-- Model of a normalized JavaScript `Date` at day granularity:
`month` is 0-based (as returned by `getMonth()`), `day` is 1-based. -/
structure JSDate where
  year : Int
  month : Int
  day : Int
deriving DecidableEq, Repr

namespace JSDate

/-- Encoding that is order-isomorphic to the JS timestamp for normalized
dates (`0 ≤ month < 12`, `1 ≤ day ≤ 31`). -/
def key (d : JSDate) : Int := (d.year * 12 + d.month) * 32 + d.day

/-- Index of the calendar month, as used by the `${year}-${month}` map key
in `calculateAccumulatedCorrection`. -/
def ymIdx (d : JSDate) : Int := d.year * 12 + d.month

/-- JS `d1 < d2` on dates (timestamp comparison). -/
def lt (a b : JSDate) : Bool := a.key < b.key

/-- JS `d1 >= d2` on dates (timestamp comparison). -/
def ge (a b : JSDate) : Bool := b.key ≤ a.key

/-- JS `d1 <= d2` on dates (timestamp comparison), used by the
`gte`/`lte` SQL range conditions. -/
def le (a b : JSDate) : Bool := a.key ≤ b.key

/-- Normalized-date predicate: what every actual JS `Date` satisfies. -/
def Valid (d : JSDate) : Prop := 0 ≤ d.month ∧ d.month < 12 ∧ 1 ≤ d.day ∧ d.day ≤ 31

instance (d : JSDate) : Decidable d.Valid := by
  unfold Valid; infer_instance

/-- Gregorian leap-year rule, as implemented by JS `Date`. -/
def isLeapYear (y : Int) : Bool := (y % 4 == 0 && y % 100 != 0) || y % 400 == 0

/-- Number of days of month `m` (0-based) of year `y`. -/
def daysInMonth (y m : Int) : Int :=
  if m = 1 then (if isLeapYear y then 29 else 28)
  else if m = 3 ∨ m = 5 ∨ m = 8 ∨ m = 10 then 30
  else 31

/-- Model of `current.setMonth(current.getMonth() + 1)` on a normalized
date: increment the month with year carry, then roll an out-of-range
day-of-month into the following month exactly as JS `Date` normalization
does (e.g. Jan 31 + 1 month = Mar 3). -/
def addOneMonth (d : JSDate) : JSDate :=
  let m := d.month + 1
  let y := if 12 ≤ m then d.year + 1 else d.year
  let m := if 12 ≤ m then m - 12 else m
  let dim := daysInMonth y m
  if dim < d.day then
    let m2 := m + 1
    let y2 := if 12 ≤ m2 then y + 1 else y
    let m2 := if 12 ≤ m2 then m2 - 12 else m2
    { year := y2, month := m2, day := d.day - dim }
  else
    { year := y, month := m, day := d.day }

/-- The date reached after `k` iterations of the correction loop's
`setMonth(getMonth() + 1)` step. -/
def stepN (s : JSDate) (k : Nat) : JSDate := addOneMonth^[k] s

end JSDate

/-! ## Rate series and the accumulated-correction calculator
(`calculateAccumulatedCorrection` in `upload_zip.ts`) -/

/-- Application-level SELIC rate row (table `selic_rates`, after the
`parseFloat` conversion of the `numeric` column). `createdAt` is an opaque
creation timestamp. -/
structure SelicRate where
  id : Int
  date : JSDate
  rate : ℚ
  createdAt : Int
deriving DecidableEq, Repr

/-- Lookup in the `monthlyRates` map of `calculateAccumulatedCorrection`:
the map is built by a `forEach` of `set` calls keyed on
`${year}-${month}`, so the LAST rate of a given calendar month in the list
wins; a missing key contributes `0` (the `|| 0` default; a stored rate of
`0` is falsy in JS but `0 || 0` is `0` as well, so `getLast?` + default is
exact). -/
def monthlyRate (selicRates : List SelicRate) (d : JSDate) : ℚ :=
  match (selicRates.filter
      (fun r => r.date.year == d.year && r.date.month == d.month)).getLast? with
  | some r => r.rate
  | none => 0

/-- Fuel-indexed embedding of the `while (current < end)` loop of
`calculateAccumulatedCorrection`: multiplies the accumulator by
`(1 + monthlyRate)` for the current date's month, then advances the
current date by one month. -/
def corrLoopFuel (mr : JSDate → ℚ) : Nat → JSDate → JSDate → ℚ → ℚ
  | 0, _, _, acc => acc
  | fuel + 1, cur, e, acc =>
    if JSDate.lt cur e then
      corrLoopFuel mr fuel (JSDate.addOneMonth cur) e (acc * (1 + mr cur))
    else acc

/-- Fuel sufficient for the loop: for valid dates each iteration advances
the month index by at least one, and iteration continues only while the
month index of `current` is at most that of `end`. -/
def loopFuel (s e : JSDate) : Nat := (JSDate.ymIdx e + 2 - JSDate.ymIdx s).toNat

/-- Embedding of `calculateAccumulatedCorrection(selicRates, startDate,
endDate)` from `upload_zip.ts`. -/
def calculateAccumulatedCorrection (selicRates : List SelicRate)
    (startDate endDate : JSDate) : ℚ :=
  if selicRates.length = 0 then 1
  else corrLoopFuel (monthlyRate selicRates) (loopFuel startDate endDate)
    startDate endDate 1

/-- Number of iterations the correction loop performs, with the same fuel
and guard as `corrLoopFuel`. -/
def stepCountFuel : Nat → JSDate → JSDate → Nat
  | 0, _, _ => 0
  | fuel + 1, cur, e =>
    if JSDate.lt cur e then stepCountFuel fuel (JSDate.addOneMonth cur) e + 1
    else 0

/-- Number of one-month steps from `s` that remain strictly before `e`. -/
def stepCount (s e : JSDate) : Nat := stepCountFuel (loopFuel s e) s e

/-! ## Record types shared by the handlers -/

/-- Status of one bill record's extraction
(enum `extraction_status` of the schema). -/
inductive ExtractionStatus
  | pending
  | success
  | error
deriving DecidableEq, Repr

/-- Status of one upload batch (enum `upload_status` of the schema). -/
inductive UploadStatus
  | processing
  | completed
  | failed
deriving DecidableEq, Repr

/-- Database row of `electricity_bills`: the nullable `numeric` columns are
string-encoded decimals in the source, modelled here as exact optional
rationals; `createdAt` is an opaque creation timestamp. -/
structure BillRow where
  id : Int
  filename : String
  uploadId : Int
  totalAmount : Option ℚ
  energyConsumption : Option ℚ
  billDate : Option JSDate
  correctedAmount : Option ℚ
  extractionStatus : ExtractionStatus
  errorMessage : Option String
  createdAt : Int
deriving DecidableEq, Repr

/-- Application-level `ElectricityBill` (the zod schema): numeric fields
already converted to numbers. The zod type declares `bill_date` non-null,
but `calculateSelicCorrection` still guards `!bill.bill_date`, so absence
is representable here. -/
structure Bill where
  id : Int
  filename : String
  uploadId : Int
  totalAmount : ℚ
  energyConsumption : ℚ
  billDate : Option JSDate
  correctedAmount : Option ℚ
  extractionStatus : ExtractionStatus
  errorMessage : Option String
  createdAt : Int
deriving DecidableEq, Repr

/-- Database row of `upload_batches`; `completedAt` is a nullable opaque
timestamp. -/
structure UploadBatch where
  id : Int
  filename : String
  totalFiles : Int
  processedFiles : Int
  failedFiles : Int
  status : UploadStatus
  createdAt : Int
  completedAt : Option Int
deriving DecidableEq, Repr

/-- First row of a `select ... where id = billId`: ids are a primary key,
so this is the row with that id when present. -/
def findBillRow (bills : List BillRow) (billId : Int) : Option BillRow :=
  (bills.filter (fun r => r.id == billId)).head?

/-- First row of a `select ... where id = uploadId` on `upload_batches`. -/
def findBatch (batches : List UploadBatch) (uploadId : Int) : Option UploadBatch :=
  (batches.filter (fun b => b.id == uploadId)).head?

/-! ## The SELIC correction handler (`calculateSelicCorrection` and
`getSelicRatesForPeriod` in `upload_zip.ts`) -/

/-- Insertion into a list kept ascending by date, used to model the
`orderBy(asc(selicRatesTable.date))` clause. Exact dates in the table are
unique (the bulk loader skips duplicates), so the resulting order is the
unique ascending order. -/
def insertByDate (r : SelicRate) : List SelicRate → List SelicRate
  | [] => [r]
  | a :: rest =>
    if a.date.key ≤ r.date.key then a :: insertByDate r rest else r :: a :: rest

/-- Ascending-by-date sort modelling the SQL `ORDER BY date ASC`. -/
def sortByDate (rs : List SelicRate) : List SelicRate := rs.foldr insertByDate []

/-- Embedding of `getSelicRatesForPeriod(startDate, endDate)`: all rate
rows with `startDate <= date <= endDate`, ascending by date. -/
def getSelicRatesForPeriod (rateTable : List SelicRate)
    (startDate endDate : JSDate) : List SelicRate :=
  sortByDate (rateTable.filter
    (fun r => JSDate.le startDate r.date && JSDate.le r.date endDate))

/-- Update of `corrected_amount` on the row with the given id
(`db.update(...).set({corrected_amount}).where(eq(id, ...))`). -/
def setCorrectedAmount (bills : List BillRow) (billId : Int) (v : ℚ) : List BillRow :=
  bills.map (fun r => if r.id == billId then { r with correctedAmount := some v } else r)

/-- Conversion applied by `calculateSelicCorrection` to the row returned by
its update: `parseFloat(x || '0')` on the three numeric columns (a null
column becomes `0`, and the `corrected_amount` it just wrote back is
returned as a number, never null) and `bill_date || new Date()`. -/
def convertSelicBill (row : BillRow) (now : JSDate) : Bill :=
  { id := row.id
    filename := row.filename
    uploadId := row.uploadId
    totalAmount := row.totalAmount.getD 0
    energyConsumption := row.energyConsumption.getD 0
    billDate := some (row.billDate.getD now)
    correctedAmount := some (row.correctedAmount.getD 0)
    extractionStatus := row.extractionStatus
    errorMessage := row.errorMessage
    createdAt := row.createdAt }

/-- Shared shape of the three branches of `calculateSelicCorrection` that
store a corrected amount and return the re-read, converted row; the
`.error` case models the `TypeError` the source would throw when
`updateResult[0]` is `undefined` (no row with the bill's id). -/
def storeCorrectedAndReturn (bills : List BillRow) (billId : Int) (v : ℚ)
    (now : JSDate) : Except String (Bill × List BillRow) :=
  let bills2 := setCorrectedAmount bills billId v
  match findBillRow bills2 billId with
  | none => .error "TypeError: updateResult[0] is undefined"
  | some row => .ok (convertSelicBill row now, bills2)

/-- Embedding of `calculateSelicCorrection(bill)` from `upload_zip.ts`.
The clock `new Date()` is the explicit `now` parameter. The source guard
`!bill.bill_date || !bill.total_amount` throws when the date is absent or
the amount is falsy; over the rational model the falsy numbers are exactly
`0` (floats also admit `NaN`, which `ℚ` does not represent). -/
def calculateSelicCorrection (bills : List BillRow) (rateTable : List SelicRate)
    (bill : Bill) (now : JSDate) : Except String (Bill × List BillRow) :=
  match bill.billDate with
  | none => .error "Bill date and total amount are required for SELIC correction"
  | some billDate =>
    if bill.totalAmount = 0 then
      .error "Bill date and total amount are required for SELIC correction"
    else if JSDate.ge billDate now then
      storeCorrectedAndReturn bills bill.id bill.totalAmount now
    else
      let selicRates := getSelicRatesForPeriod rateTable billDate now
      if selicRates.length = 0 then
        storeCorrectedAndReturn bills bill.id bill.totalAmount now
      else
        let correctionFactor := calculateAccumulatedCorrection selicRates billDate now
        storeCorrectedAndReturn bills bill.id (bill.totalAmount * correctionFactor) now

/-! ## Batch progress (`updateUploadBatchProgress` in the bill-result
handler) -/

/-- Embedding of `updateUploadBatchProgress(uploadId, isSuccess)`: reads
the batch, increments `processed_files` (and `failed_files` on a failure),
marks the batch `completed` when `processed_files >= total_files`, and in
that case stamps `completed_at` with the current time. -/
def updateUploadBatchProgress (batches : List UploadBatch) (uploadId : Int)
    (isSuccess : Bool) (now : Int) : Except String (List UploadBatch) :=
  match findBatch batches uploadId with
  | none => .error ("Upload batch with ID " ++ toString uploadId ++ " not found")
  | some batch =>
    let newProcessedFiles := batch.processedFiles + 1
    let newFailedFiles := batch.failedFiles + (if isSuccess then 0 else 1)
    let isComplete := batch.totalFiles ≤ newProcessedFiles
    let newStatus := if isComplete then UploadStatus.completed else UploadStatus.processing
    .ok (batches.map (fun b =>
      if b.id == uploadId then
        { b with
          processedFiles := newProcessedFiles
          failedFiles := newFailedFiles
          status := newStatus
          completedAt := if isComplete then some now else b.completedAt }
      else b))

/-! ## The bill-result handler (`updateBillResult`) -/

/-- Input of `updateBillResult` (zod `updateBillResultInputSchema`): an
outer `none` models an omitted (`undefined`) optional field; for the two
nullable optional fields the inner `Option` is the `null`-able value. -/
structure UpdateBillResultInput where
  id : Int
  totalAmount : Option ℚ
  energyConsumption : Option ℚ
  billDate : Option JSDate
  correctedAmount : Option (Option ℚ)
  extractionStatus : ExtractionStatus
  errorMessage : Option (Option String)
deriving DecidableEq, Repr

/-- The `updateData` object of `updateBillResult` applied to a row:
`extraction_status` is always set; each other field only when provided.
`corrected_amount` goes through `input.corrected_amount ? toString : null`,
so a provided `null` — or a provided `0`, which is falsy — is stored as
`null`. -/
def applyBillUpdate (row : BillRow) (input : UpdateBillResultInput) : BillRow :=
  { row with
    extractionStatus := input.extractionStatus
    totalAmount :=
      match input.totalAmount with
      | none => row.totalAmount
      | some v => some v
    energyConsumption :=
      match input.energyConsumption with
      | none => row.energyConsumption
      | some v => some v
    billDate :=
      match input.billDate with
      | none => row.billDate
      | some d => some d
    correctedAmount :=
      match input.correctedAmount with
      | none => row.correctedAmount
      | some (some q) => if q = 0 then none else some q
      | some none => none
    errorMessage :=
      match input.errorMessage with
      | none => row.errorMessage
      | some v => v }

/-- Row-to-`ElectricityBill` conversion shared verbatim by
`updateBillResult`, `processBill`, `generateReport` and `getUploadStatus`:
`x ? parseFloat(x) : 0` on `total_amount` / `energy_consumption` (numeric
strings are never empty, so only `null` is falsy), `bill_date || new
Date()`, and `corrected_amount ? parseFloat(...) : null` (a stored
`"0.00"` string is truthy and parses to `0`). -/
def convertRowToBill (row : BillRow) (nowDate : JSDate) : Bill :=
  { id := row.id
    filename := row.filename
    uploadId := row.uploadId
    totalAmount := row.totalAmount.getD 0
    energyConsumption := row.energyConsumption.getD 0
    billDate := some (row.billDate.getD nowDate)
    correctedAmount := row.correctedAmount
    extractionStatus := row.extractionStatus
    errorMessage := row.errorMessage
    createdAt := row.createdAt }

/-- Embedding of `updateBillResult(input)`: looks up the existing record,
overwrites it with the provided fields, and — only when the record was
`pending` before the call — notifies the batch tracker with
success/failure. `updatedBills[0]` of the source is the first row with the
input id after the update, modelled by the faithful re-read. `now` is the
tracker's clock, `nowDate` the conversion's. -/
def updateBillResult (bills : List BillRow) (batches : List UploadBatch)
    (input : UpdateBillResultInput) (now : Int) (nowDate : JSDate) :
    Except String (Bill × List BillRow × List UploadBatch) :=
  match findBillRow bills input.id with
  | none => .error ("Bill with ID " ++ toString input.id ++ " not found")
  | some existingBill =>
    let bills2 := bills.map (fun r =>
      if r.id == input.id then applyBillUpdate r input else r)
    match findBillRow bills2 input.id with
    | none => .error "TypeError: updatedBills[0] is undefined"
    | some updatedBill =>
      let wasSuccessful := input.extractionStatus == ExtractionStatus.success
      let wasPending := existingBill.extractionStatus == ExtractionStatus.pending
      if wasPending then
        match updateUploadBatchProgress batches existingBill.uploadId wasSuccessful now with
        | .error e => .error e
        | .ok batches2 => .ok (convertRowToBill updatedBill nowDate, bills2, batches2)
      else
        .ok (convertRowToBill updatedBill nowDate, bills2, batches)

/-! ## The report handler (`generateReport` in `generate_report.ts`) -/

/-- Summary block of the consolidated report. -/
structure ReportSummary where
  totalBills : Nat
  successfulExtractions : Nat
  failedExtractions : Nat
  totalOriginalAmount : ℚ
  totalCorrectedAmount : ℚ
  totalEnergyConsumption : ℚ
deriving DecidableEq, Repr

/-- Consolidated report returned by `generateReport`. -/
structure ConsolidatedReport where
  bills : List Bill
  summary : ReportSummary
deriving DecidableEq, Repr

/-- JS `x || fb` on a number `x`: `x` unless it is falsy (`0`), in which
case the fallback. -/
def jsOrQ (x fb : ℚ) : ℚ := if x = 0 then fb else x

/-- JS `x || fb` where `x` is a nullable number: `null` and `0` are falsy. -/
def jsOrOptQ (x : Option ℚ) (fb : ℚ) : ℚ :=
  match x with
  | some v => if v = 0 then fb else v
  | none => fb

/-- Embedding of `generateReport(input)` from `generate_report.ts`:
verifies the batch exists, converts the batch's bill rows, and reduces the
`success` rows into the summary totals. The corrected total accumulates
`bill.corrected_amount || bill.total_amount || 0` per success row. -/
def generateReport (batches : List UploadBatch) (bills : List BillRow)
    (uploadId : Int) (nowDate : JSDate) : Except String ConsolidatedReport :=
  match findBatch batches uploadId with
  | none => .error ("Upload batch with ID " ++ toString uploadId ++ " not found")
  | some _ =>
    let billRows := bills.filter (fun b => b.uploadId == uploadId)
    let convertedBills := billRows.map (fun b => convertRowToBill b nowDate)
    let totalBills := convertedBills.length
    let successfulExtractions := (convertedBills.filter
      (fun b => b.extractionStatus == ExtractionStatus.success)).length
    let failedExtractions := (convertedBills.filter
      (fun b => b.extractionStatus == ExtractionStatus.error)).length
    let successfulBills := convertedBills.filter
      (fun b => b.extractionStatus == ExtractionStatus.success)
    let totalOriginalAmount := successfulBills.foldl
      (fun sum b => sum + jsOrQ b.totalAmount 0) 0
    let totalCorrectedAmount := successfulBills.foldl
      (fun sum b => sum + jsOrOptQ b.correctedAmount (jsOrQ b.totalAmount 0)) 0
    let totalEnergyConsumption := successfulBills.foldl
      (fun sum b => sum + jsOrQ b.energyConsumption 0) 0
    .ok
      { bills := convertedBills
        summary :=
          { totalBills := totalBills
            successfulExtractions := successfulExtractions
            failedExtractions := failedExtractions
            totalOriginalAmount := totalOriginalAmount
            totalCorrectedAmount := totalCorrectedAmount
            totalEnergyConsumption := totalEnergyConsumption } }

/-! ## The upload handler (`uploadZip` in `upload_zip.ts`) -/

/-- Input of `uploadZip` (zod `uploadZipInputSchema`); `file_count` is the
declared number of files. -/
structure UploadZipInput where
  filename : String
  fileSize : ℚ
  fileCount : Nat
deriving DecidableEq, Repr

/-- Response of `uploadZip`. -/
structure UploadResponse where
  uploadId : Int
  message : String
  status : String
deriving DecidableEq, Repr

/-- Embedding of `uploadZip(input)`: inserts one `upload_batches` row with
`status = 'processing'` and zeroed counters, then `file_count` pending
placeholder bill rows named `bill_&#36;{i}.pdf`; serial ids are modelled by
the explicit `nextBatchId` / `nextBillId` parameters and `created_at`
defaults by `now`. -/
def uploadZip (batches : List UploadBatch) (bills : List BillRow)
    (input : UploadZipInput) (nextBatchId nextBillId : Int) (now : Int) :
    UploadResponse × List UploadBatch × List BillRow :=
  let uploadBatch : UploadBatch :=
    { id := nextBatchId
      filename := input.filename
      totalFiles := (input.fileCount : Int)
      processedFiles := 0
      failedFiles := 0
      status := UploadStatus.processing
      createdAt := now
      completedAt := none }
  let billRecords : List BillRow := (List.range input.fileCount).map (fun index =>
    { id := nextBillId + index
      filename := "bill_" ++ toString (index + 1) ++ ".pdf"
      uploadId := nextBatchId
      totalAmount := none
      energyConsumption := none
      billDate := none
      correctedAmount := none
      extractionStatus := ExtractionStatus.pending
      errorMessage := none
      createdAt := now })
  ({ uploadId := nextBatchId
     message := "ZIP file " ++ input.filename ++ " uploaded successfully. Processing "
       ++ toString input.fileCount ++ " files."
     status := "processing" },
   batches ++ [uploadBatch], bills ++ billRecords)

/-! ## The per-file processing handler (`processBill` in
`process_bill.ts`) -/

/-- Whether the character list starting here begins with the pattern. -/
def matchHere : List Char → List Char → Bool
  | _, [] => true
  | [], _ :: _ => false
  | a :: as, b :: bs => a == b && matchHere as bs

/-- Whether the pattern occurs anywhere in the character list. -/
def hasSub : List Char → List Char → Bool
  | [], pat => matchHere [] pat
  | c :: rest, pat => matchHere (c :: rest) pat || hasSub rest pat

/-- JS `s.includes(pat)`. -/
def strIncludes (s pat : String) : Bool := hasSub s.data pat.data

/-- Values produced by the simulated extraction. -/
structure ExtractedData where
  totalAmount : ℚ
  energyConsumption : ℚ
  billDate : JSDate
deriving DecidableEq, Repr

/-- Embedding of `extractFromPDF(buffer)`: deterministic simulated values
keyed off substrings of the first 1000 bytes of the buffer; the two error
patterns throw. `new Date('2023-08-15')` is month index 7 of 2023. -/
def extractFromPDF (content : String) : Except String ExtractedData :=
  if strIncludes content "INVALID_PDF" then .error "Invalid PDF format"
  else if strIncludes content "CORRUPTED_DATA" then .error "Corrupted PDF data"
  else .ok
    { totalAmount := if strIncludes content "TEST_AMOUNT" then 156.78 else 123.45
      energyConsumption := if strIncludes content "TEST_CONSUMPTION" then 234 else 180
      billDate := if strIncludes content "TEST_DATE"
        then { year := 2023, month := 7, day := 15 }
        else { year := 2023, month := 6, day := 15 } }

/-- Embedding of `extractFromImage(buffer)`, the OCR counterpart of
`extractFromPDF`. -/
def extractFromImage (content : String) : Except String ExtractedData :=
  if strIncludes content "UNREADABLE_IMAGE" then .error "Image text is unreadable"
  else if strIncludes content "LOW_QUALITY" then .error "Image quality too low for OCR"
  else .ok
    { totalAmount := if strIncludes content "OCR_AMOUNT" then 98.76 else 87.65
      energyConsumption := if strIncludes content "OCR_CONSUMPTION" then 156 else 145
      billDate := if strIncludes content "OCR_DATE"
        then { year := 2023, month := 8, day := 20 }
        else { year := 2023, month := 5, day := 20 } }

/-- JS `filename.toLowerCase().split('.').pop()`: the final dot-separated
component of the lower-cased filename (the whole name when it has no dot;
`split` never yields an empty array). -/
def fileExt (filename : String) : String :=
  ((filename.toLower).splitOn ".").getLast?.getD ""

/-- Input of `processBill` (zod `processBillInputSchema`); the byte buffer
is modelled as a string, matching how the source only ever reads it
(`buffer.toString('utf8', 0, min(length, 1000))`). -/
structure ProcessBillInput where
  uploadId : Int
  filename : String
  fileBuffer : String
deriving DecidableEq, Repr

/-- Embedding of `processBill(input)`: verifies the parent batch exists,
inserts one pending bill row, runs the simulated extraction, and updates
that row to `success` with the extracted fields or to `error` with the
thrown message. The `upload_batches` table is threaded through untouched —
the source only ever `select`s from it. -/
def processBill (batches : List UploadBatch) (bills : List BillRow)
    (input : ProcessBillInput) (nextBillId : Int) (now : Int) (nowDate : JSDate) :
    Except String Bill × List UploadBatch × List BillRow :=
  match findBatch batches input.uploadId with
  | none =>
    (.error ("Upload batch with ID " ++ toString input.uploadId ++ " not found"),
      batches, bills)
  | some _ =>
    let initialRow : BillRow :=
      { id := nextBillId
        filename := input.filename
        uploadId := input.uploadId
        totalAmount := none
        energyConsumption := none
        billDate := none
        correctedAmount := none
        extractionStatus := ExtractionStatus.pending
        errorMessage := none
        createdAt := now }
    let bills1 := bills ++ [initialRow]
    let content := input.fileBuffer.take 1000
    let fileExtension := fileExt input.filename
    let outcome : Except String ExtractedData :=
      if fileExtension = "pdf" then extractFromPDF content
      else if fileExtension ∈ ["jpg", "jpeg", "png", "tiff", "bmp"] then
        extractFromImage content
      else .error ("Unsupported file type: " ++ fileExtension)
    match outcome with
    | .ok extractedData =>
      let bills2 := bills1.map (fun r =>
        if r.id == nextBillId then
          { r with
            totalAmount := some extractedData.totalAmount
            energyConsumption := some extractedData.energyConsumption
            billDate := some extractedData.billDate
            extractionStatus := ExtractionStatus.success
            errorMessage := none }
        else r)
      match findBillRow bills2 nextBillId with
      | none => (.error "TypeError: updatedBill[0] is undefined", batches, bills2)
      | some row => (.ok (convertRowToBill row nowDate), batches, bills2)
    | .error errorMessage =>
      let bills2 := bills1.map (fun r =>
        if r.id == nextBillId then
          { r with
            extractionStatus := ExtractionStatus.error
            errorMessage := some errorMessage }
        else r)
      match findBillRow bills2 nextBillId with
      | none => (.error "TypeError: updatedBill[0] is undefined", batches, bills2)
      | some row => (.ok (convertRowToBill row nowDate), batches, bills2)

/-! ## The SELIC bulk loader (`loadSelicData`) -/

/-- ASCII whitespace test backing the JS `trim()` model (the rate CSV
contains no exotic whitespace). -/
def jsIsSpace (c : Char) : Bool := c == ' ' || c == '\t' || c == '\n' || c == '\r'

/-- JS `s.trim()` over a character list: strip leading and trailing
whitespace. -/
def trimChars (l : List Char) : List Char :=
  ((l.dropWhile jsIsSpace).reverse.dropWhile jsIsSpace).reverse

/-- JS `s.trim()`. -/
def jsTrim (s : String) : String := String.mk (trimChars s.data)

/-- JS `s.split(sep)` for a one-character separator, over characters;
`split` always yields at least one (possibly empty) field. -/
def splitChars (sep : Char) : List Char → List (List Char)
  | [] => [[]]
  | c :: rest =>
    match splitChars sep rest with
    | [] => [[c]]
    | h :: t => if c == sep then [] :: h :: t else (c :: h) :: t

/-- JS `s.split(sep)` for a one-character separator. -/
def jsSplit (s : String) (sep : Char) : List String :=
  (splitChars sep s.data).map (fun cs => String.mk cs)

/-- Counters returned by `loadSelicData`. -/
structure LoadResult where
  loaded : Nat
  skipped : Nat
  errors : Nat
deriving DecidableEq, Repr

/-- State threaded through the loader's line loop: the counters, the
`existingDates` set (date keys already present, as a list), and the rows
inserted so far as (date, rate) pairs. -/
structure LoadState where
  result : LoadResult
  existingDates : List JSDate
  inserted : List (JSDate × ℚ)
deriving DecidableEq, Repr

/-- One iteration of the loader's `for (const line of dataLines)` body.
The JS built-ins `new Date(dateStr)` and `parseFloat(rateStr)` are the
environment parameters `parseDate` / `parseRate`; `none` models the
`isNaN` outcome. A missing or empty column (`!dateStr || !rateStr`) is an
error before parsing. The duplicate test key `toISOString().split('T')[0]`
is the calendar date itself at the day granularity of the model. -/
def selicLineStep (parseDate : String → Option JSDate) (parseRate : String → Option ℚ)
    (st : LoadState) (line : String) : LoadState :=
  let cols := (jsSplit line ',').map jsTrim
  let dateStr := (cols[0]?).getD ""
  let rateStr := (cols[1]?).getD ""
  if dateStr = "" ∨ rateStr = "" then
    { st with result := { st.result with errors := st.result.errors + 1 } }
  else
    match parseDate dateStr, parseRate rateStr with
    | some date, some rate =>
      if st.existingDates.contains date then
        { st with result := { st.result with skipped := st.result.skipped + 1 } }
      else
        { result := { st.result with loaded := st.result.loaded + 1 }
          existingDates := st.existingDates ++ [date]
          inserted := st.inserted ++ [(date, rate)] }
    | _, _ => { st with result := { st.result with errors := st.result.errors + 1 } }

/-- The non-empty lines of the CSV content after the header row
(`split('\n').filter(line => line.trim())` then `slice(1)`). -/
def selicDataLines (csvContent : String) : List String :=
  ((jsSplit csvContent '\n').filter (fun line => ¬ jsTrim line = "")).drop 1

/-- Embedding of `loadSelicData()` from the point where the CSV file was
read successfully: each data line is processed independently by
`selicLineStep`, starting from the dates already in the rate table. -/
def loadSelicData (parseDate : String → Option JSDate) (parseRate : String → Option ℚ)
    (rateTable : List SelicRate) (csvContent : String) : LoadResult × List (JSDate × ℚ) :=
  let dataLines := selicDataLines csvContent
  let init : LoadState :=
    { result := { loaded := 0, skipped := 0, errors := 0 }
      existingDates := rateTable.map (fun r => r.date)
      inserted := [] }
  let final := dataLines.foldl (selicLineStep parseDate parseRate) init
  (final.result, final.inserted)

/-- Per-line classification of the loader: malformed (parse failure or
missing column), duplicate of a date key already seen, or fresh. -/
inductive LineClass
  | malformed
  | dup
  | fresh (date : JSDate) (rate : ℚ)
deriving DecidableEq, Repr

/-- Classification of one line against a set of already-present date keys. -/
def classifyLine (parseDate : String → Option JSDate) (parseRate : String → Option ℚ)
    (keys : List JSDate) (line : String) : LineClass :=
  let cols := (jsSplit line ',').map jsTrim
  let dateStr := (cols[0]?).getD ""
  let rateStr := (cols[1]?).getD ""
  if dateStr = "" ∨ rateStr = "" then LineClass.malformed
  else
    match parseDate dateStr, parseRate rateStr with
    | some date, some rate =>
      if keys.contains date then LineClass.dup else LineClass.fresh date rate
    | _, _ => LineClass.malformed

/-- Specification-level recursion over the data lines: classify each line
against the keys accumulated so far, count it in exactly one of the three
counters, and extend the keys only on a fresh line. -/
def specLoadRec (parseDate : String → Option JSDate) (parseRate : String → Option ℚ) :
    List String → List JSDate → LoadResult × List (JSDate × ℚ)
  | [], _ => ({ loaded := 0, skipped := 0, errors := 0 }, [])
  | line :: rest, keys =>
    match classifyLine parseDate parseRate keys line with
    | LineClass.malformed =>
      ({ (specLoadRec parseDate parseRate rest keys).1 with
          errors := (specLoadRec parseDate parseRate rest keys).1.errors + 1 },
        (specLoadRec parseDate parseRate rest keys).2)
    | LineClass.dup =>
      ({ (specLoadRec parseDate parseRate rest keys).1 with
          skipped := (specLoadRec parseDate parseRate rest keys).1.skipped + 1 },
        (specLoadRec parseDate parseRate rest keys).2)
    | LineClass.fresh date rate =>
      ({ (specLoadRec parseDate parseRate rest (keys ++ [date])).1 with
          loaded := (specLoadRec parseDate parseRate rest (keys ++ [date])).1.loaded + 1 },
        (date, rate) :: (specLoadRec parseDate parseRate rest (keys ++ [date])).2)

/-! ## Definitions transcribed from the claims (for refinement
comparisons) -/

/-- Rate of the calendar month with the given month index, with the same
last-entry-wins and missing-month-is-zero convention as `monthlyRate`. -/
def rateOfYmIdx (selicRates : List SelicRate) (i : Int) : ℚ :=
  match (selicRates.filter (fun r => r.date.ymIdx == i)).getLast? with
  | some r => r.rate
  | none => 0

/-- Transcription of the claimed walk of `calculateAccumulatedCorrection`:
the product of `(1 + rate)` over the calendar months from the origin
date's month up to but not including the as-of date's month. -/
def specMonthWalkFactor (selicRates : List SelicRate) (s e : JSDate) : ℚ :=
  ((List.range (JSDate.ymIdx e - JSDate.ymIdx s).toNat).map
    (fun (k : Nat) => 1 + rateOfYmIdx selicRates (JSDate.ymIdx s + (k : Int)))).prod

/-- Transcription of the claimed corrected total of the report summary:
the sum over `success` rows of `corrected_amount`, falling back to
`total_amount` exactly when `corrected_amount` is absent. -/
def specTotalCorrected (rows : List BillRow) : ℚ :=
  ((rows.filter (fun r => r.extractionStatus == ExtractionStatus.success)).map
    (fun r => r.correctedAmount.getD (r.totalAmount.getD 0))).sum

/-! ## Concrete instances used by the claim theorems -/

/-- January 2023 rate row at 1 percent. -/
def rateJan23 : SelicRate :=
  { id := 1, date := { year := 2023, month := 0, day := 1 }, rate := 0.01, createdAt := 0 }

/-- February 2023 rate row at 1 percent. -/
def rateFeb23 : SelicRate :=
  { id := 2, date := { year := 2023, month := 1, day := 1 }, rate := 0.01, createdAt := 0 }

/-- March 2023 rate row at 1 percent. -/
def rateMar23 : SelicRate :=
  { id := 3, date := { year := 2023, month := 2, day := 1 }, rate := 0.01, createdAt := 0 }

/-- An already-completed batch: 1 of 1 files processed, stamped at time 100. -/
def doneBatch : UploadBatch :=
  { id := 1, filename := "bills.zip", totalFiles := 1, processedFiles := 1,
    failedFiles := 0, status := UploadStatus.completed, createdAt := 0,
    completedAt := some 100 }

/-- A fresh two-file batch in progress. -/
def freshBatch : UploadBatch :=
  { id := 5, filename := "two.zip", totalFiles := 2, processedFiles := 0,
    failedFiles := 0, status := UploadStatus.processing, createdAt := 0,
    completedAt := none }

/-- A bill row already in the terminal `success` state. -/
def c3Row : BillRow :=
  { id := 10, filename := "bill_1.pdf", uploadId := 1, totalAmount := some 100,
    energyConsumption := some 50, billDate := some { year := 2023, month := 6, day := 15 },
    correctedAmount := some 110, extractionStatus := ExtractionStatus.success,
    errorMessage := none, createdAt := 0 }

/-- The parent batch of `c3Row`, already completed. -/
def c3Batch : UploadBatch :=
  { id := 1, filename := "bills.zip", totalFiles := 1, processedFiles := 1,
    failedFiles := 0, status := UploadStatus.completed, createdAt := 0,
    completedAt := some 100 }

/-- A repeated result-update against `c3Row`. -/
def c3Input : UpdateBillResultInput :=
  { id := 10, totalAmount := some 120, energyConsumption := none, billDate := none,
    correctedAmount := some (some 130), extractionStatus := ExtractionStatus.success,
    errorMessage := none }

/-- A fixed conversion date for witnesses. -/
def someDate : JSDate := { year := 2024, month := 0, day := 1 }

/-- A stored row for the same-date correction scenarios. -/
def c6Row : BillRow :=
  { id := 1, filename := "b.pdf", uploadId := 1, totalAmount := some 100,
    energyConsumption := some 10, billDate := some { year := 2024, month := 0, day := 1 },
    correctedAmount := none, extractionStatus := ExtractionStatus.success,
    errorMessage := none, createdAt := 0 }

/-- An app-level bill whose date equals the reference date, principal 100. -/
def c6Bill : Bill :=
  { id := 1, filename := "b.pdf", uploadId := 1, totalAmount := 100,
    energyConsumption := 10, billDate := some { year := 2024, month := 0, day := 1 },
    correctedAmount := none, extractionStatus := ExtractionStatus.success,
    errorMessage := none, createdAt := 0 }

/-- A stored row for the validation scenarios. -/
def c9Row : BillRow :=
  { id := 2, filename := "c.pdf", uploadId := 1, totalAmount := some 0,
    energyConsumption := some 10, billDate := some { year := 2024, month := 0, day := 1 },
    correctedAmount := none, extractionStatus := ExtractionStatus.success,
    errorMessage := none, createdAt := 0 }

/-- A bill with principal `0` and a present bill date. -/
def c9ZeroBill : Bill :=
  { id := 2, filename := "c.pdf", uploadId := 1, totalAmount := 0,
    energyConsumption := 10, billDate := some { year := 2024, month := 0, day := 1 },
    correctedAmount := none, extractionStatus := ExtractionStatus.success,
    errorMessage := none, createdAt := 0 }

/-- A bill with negative principal `-50` and a present bill date. -/
def c9NegBill : Bill :=
  { id := 2, filename := "c.pdf", uploadId := 1, totalAmount := -50,
    energyConsumption := 10, billDate := some { year := 2024, month := 0, day := 1 },
    correctedAmount := none, extractionStatus := ExtractionStatus.success,
    errorMessage := none, createdAt := 0 }

/-- Observable content of a rate row: its date and rate, without the
surrogate id and creation timestamp. -/
def rateProj (r : SelicRate) : JSDate × ℚ := (r.date, r.rate)

/-- The January 2023 rate with different surrogate id and creation time
than `rateJan23`, but the same (date, rate) content. -/
def rateJan23Alt : SelicRate :=
  { id := 99, date := { year := 2023, month := 0, day := 1 }, rate := 0.01,
    createdAt := 777 }

/-- A second app-level bill agreeing with `c6Bill` on principal and bill
date but differing in id, filename and consumption. -/
def c8Bill2 : Bill :=
  { id := 42, filename := "other.pdf", uploadId := 3, totalAmount := 100,
    energyConsumption := 77, billDate := some { year := 2024, month := 0, day := 1 },
    correctedAmount := some 5, extractionStatus := ExtractionStatus.success,
    errorMessage := none, createdAt := 123 }

/-- A stored row for `c8Bill2` in an otherwise different bill table. -/
def c8Row2 : BillRow :=
  { id := 42, filename := "other.pdf", uploadId := 3, totalAmount := some 1,
    energyConsumption := none, billDate := none, correctedAmount := none,
    extractionStatus := ExtractionStatus.pending, errorMessage := none,
    createdAt := 123 }

/-- A batch that `processBill` calls can target. -/
def c10Batch : UploadBatch :=
  { id := 1, filename := "bills.zip", totalFiles := 3, processedFiles := 1,
    failedFiles := 1, status := UploadStatus.processing, createdAt := 0,
    completedAt := none }

/-- A batch owning the report scenarios' rows. -/
def c5Batch : UploadBatch :=
  { id := 7, filename := "z.zip", totalFiles := 1, processedFiles := 1,
    failedFiles := 0, status := UploadStatus.completed, createdAt := 0,
    completedAt := some 5 }

/-- A success row with `total_amount = 50` and a stored
`corrected_amount = 0`. -/
def c5ZeroRow : BillRow :=
  { id := 1, filename := "b.pdf", uploadId := 7, totalAmount := some 50,
    energyConsumption := some 10, billDate := none, correctedAmount := some 0,
    extractionStatus := ExtractionStatus.success, errorMessage := none,
    createdAt := 0 }

/-- Concrete date parser standing in for JS `new Date(dateStr)` on the
three date texts the loader scenarios use. -/
def pdC4 : String → Option JSDate := fun s =>
  if s = "2023-01-01" then some { year := 2023, month := 0, day := 1 }
  else if s = "2023-01-15" then some { year := 2023, month := 0, day := 15 }
  else if s = "2023-02-01" then some { year := 2023, month := 1, day := 1 }
  else none

/-- Concrete rate parser standing in for JS `parseFloat(rateStr)` on the
two rate texts the loader scenarios use. -/
def prC4 : String → Option ℚ := fun s =>
  if s = "0.01" then some 0.01 else if s = "0.02" then some 0.02 else none

/-! ## Helper lemmas -/

theorem JSDate.daysInMonth_bounds (y m : Int) : 28 ≤ daysInMonth y m ∧ daysInMonth y m ≤ 31 := by
  unfold daysInMonth
  split
  · split <;> omega
  · split <;> omega

theorem JSDate.addOneMonth_valid {d : JSDate} (h : d.Valid) : (addOneMonth d).Valid := by
  obtain ⟨h1, h2, h3, h4⟩ := h
  unfold addOneMonth
  have hb1 := daysInMonth_bounds (if 12 ≤ d.month + 1 then d.year + 1 else d.year)
    (if 12 ≤ d.month + 1 then d.month + 1 - 12 else d.month + 1)
  simp only [Valid]
  split <;> split <;> simp_all <;> omega

theorem JSDate.ymIdx_addOneMonth {d : JSDate} (h : d.Valid) :
    ymIdx d + 1 ≤ ymIdx (addOneMonth d) ∧ ymIdx (addOneMonth d) ≤ ymIdx d + 2 := by
  obtain ⟨h1, h2, h3, h4⟩ := h
  unfold addOneMonth
  have hb1 := daysInMonth_bounds (if 12 ≤ d.month + 1 then d.year + 1 else d.year)
    (if 12 ≤ d.month + 1 then d.month + 1 - 12 else d.month + 1)
  simp only [ymIdx]
  split <;> split <;> simp_all <;> omega

theorem JSDate.ymIdx_le_of_lt {d e : JSDate} (hd : d.Valid) (he : e.Valid)
    (h : lt d e = true) : ymIdx d ≤ ymIdx e := by
  obtain ⟨_, _, h3, h4⟩ := hd
  obtain ⟨_, _, h7, h8⟩ := he
  simp only [lt, key, decide_eq_true_eq] at h
  simp only [ymIdx]
  omega

theorem JSDate.stepN_succ (s : JSDate) (k : Nat) :
    stepN s (k + 1) = stepN (addOneMonth s) k := by
  simp [stepN, Function.iterate_succ_apply]

theorem stepCountFuel_spec (e : JSDate) (he : e.Valid) :
    ∀ fuel s, s.Valid → (JSDate.ymIdx e + 2 - JSDate.ymIdx s).toNat ≤ fuel →
      (∀ k < stepCountFuel fuel s e, JSDate.lt (JSDate.stepN s k) e = true) ∧
        JSDate.lt (JSDate.stepN s (stepCountFuel fuel s e)) e = false := by
  intro fuel
  induction fuel with
  | zero =>
    intro s hs hf
    obtain ⟨hs1, hs2, hs3, hs4⟩ := hs
    obtain ⟨he1, he2, he3, he4⟩ := he
    refine ⟨fun k hk => absurd hk (by simp [stepCountFuel]), ?_⟩
    simp only [stepCountFuel, JSDate.stepN, Function.iterate_zero, id_eq]
    simp only [JSDate.lt, JSDate.key, decide_eq_false_iff_not, not_lt]
    simp only [JSDate.ymIdx] at hf
    omega
  | succ f ih =>
    intro s hs hf
    cases hlt : JSDate.lt s e with
    | false =>
      refine ⟨fun k hk => absurd hk (by simp [stepCountFuel, hlt]), ?_⟩
      simp [stepCountFuel, hlt, JSDate.stepN]
    | true =>
      have hs' : (JSDate.addOneMonth s).Valid := JSDate.addOneMonth_valid hs
      have hym := JSDate.ymIdx_addOneMonth hs
      have hle := JSDate.ymIdx_le_of_lt hs he hlt
      have hf' : (JSDate.ymIdx e + 2 - JSDate.ymIdx (JSDate.addOneMonth s)).toNat ≤ f := by
        omega
      obtain ⟨ih1, ih2⟩ := ih (JSDate.addOneMonth s) hs' hf'
      simp only [stepCountFuel, hlt, if_true]
      constructor
      · intro k hk
        cases k with
        | zero => simpa [JSDate.stepN] using hlt
        | succ j =>
          rw [JSDate.stepN_succ]
          exact ih1 j (by omega)
      · rw [JSDate.stepN_succ]
        exact ih2

theorem corrLoopFuel_eq_prod (mr : JSDate → ℚ) (e : JSDate) :
    ∀ fuel s acc, corrLoopFuel mr fuel s e acc =
      acc * ((List.range (stepCountFuel fuel s e)).map
        (fun k => 1 + mr (JSDate.stepN s k))).prod := by
  intro fuel
  induction fuel with
  | zero => intro s acc; simp [corrLoopFuel, stepCountFuel]
  | succ f ih =>
    intro s acc
    cases hlt : JSDate.lt s e with
    | false => simp [corrLoopFuel, stepCountFuel, hlt]
    | true =>
      simp only [corrLoopFuel, stepCountFuel, hlt, if_true]
      rw [ih]
      rw [List.range_succ_eq_map, List.map_cons, List.prod_cons, List.map_map]
      have hhead : JSDate.stepN s 0 = s := rfl
      have hcomp : ((fun k => 1 + mr (JSDate.stepN s k)) ∘ Nat.succ) =
          (fun k => 1 + mr (JSDate.stepN (JSDate.addOneMonth s) k)) := by
        funext k
        simp only [Function.comp_apply]
        rw [Nat.succ_eq_add_one, JSDate.stepN_succ]
      rw [hcomp, hhead]
      ring

theorem filter_head_map_ite {α : Type} (l : List α) (p : α → Bool) (g : α → α)
    (hg : ∀ r, p (g r) = p r) :
    ((l.map (fun r => if p r then g r else r)).filter p).head? =
      ((l.filter p).head?).map g := by
  induction l with
  | nil => rfl
  | cons a t ih =>
    cases h : p a with
    | true => simp [List.filter_cons, h, hg a]
    | false => simp [List.filter_cons, h, hg a, ih]

theorem findBillRow_map_ite (bills : List BillRow) (billId : Int) (g : BillRow → BillRow)
    (hg : ∀ r, (g r).id = r.id) :
    findBillRow (bills.map (fun r => if r.id == billId then g r else r)) billId =
      (findBillRow bills billId).map g := by
  unfold findBillRow
  exact filter_head_map_ite bills (fun r => r.id == billId) g (fun r => by simp only [hg r])

theorem findBatch_map_ite (batches : List UploadBatch) (uploadId : Int)
    (g : UploadBatch → UploadBatch) (hg : ∀ b, (g b).id = b.id) :
    findBatch (batches.map (fun b => if b.id == uploadId then g b else b)) uploadId =
      (findBatch batches uploadId).map g := by
  unfold findBatch
  exact filter_head_map_ite batches (fun b => b.id == uploadId) g (fun b => by simp only [hg b])

/-- C2 (counterexample): the claim fails on the code for a call against an
already-completed batch. `doneBatch` has `processed_files = total_files = 1`
and `completed_at = 100`; one more tracker call increments
`processed_files` to 2 — so status `completed` no longer coincides with
`processed_files = total_files` — and re-stamps `completed_at` with the
new clock value 200. -/
theorem C2_counterexample :
    updateUploadBatchProgress [doneBatch] 1 true 200 =
      Except.ok [{ doneBatch with
        processedFiles := 2, failedFiles := 0,
        status := UploadStatus.completed, completedAt := some 200 }] ∧
    ({ doneBatch with
        processedFiles := 2, failedFiles := 0,
        status := UploadStatus.completed,
        completedAt := some 200 } : UploadBatch).processedFiles ≠ doneBatch.totalFiles ∧
    doneBatch.completedAt = some 100 ∧ (some 200 : Option Int) ≠ some 100 := by
  refine ⟨rfl, by decide, rfl, by decide⟩

/-- C2 (amended): after recording a terminal outcome, the batch's status is
`completed` if and only if `processed_files >= total_files` (not: equals),
and — provided `completed_at` was non-null before the call only if the
batch had already reached `total_files` — `completed_at` is non-null
exactly when the status is `completed`; `completed_at` is stamped with the
current time on EVERY call that reaches or exceeds `total_files`, so a
later call on an already-completed batch re-stamps it. -/
theorem C2_completion (batches : List UploadBatch) (uploadId : Int) (isSuccess : Bool)
    (now : Int) (batch : UploadBatch)
    (hfind : findBatch batches uploadId = some batch)
    (hpre : batch.completedAt.isSome → batch.totalFiles ≤ batch.processedFiles) :
    ∃ batches2 b2,
      updateUploadBatchProgress batches uploadId isSuccess now = Except.ok batches2 ∧
      findBatch batches2 uploadId = some b2 ∧
      b2.processedFiles = batch.processedFiles + 1 ∧
      b2.totalFiles = batch.totalFiles ∧
      (b2.status = UploadStatus.completed ↔ b2.totalFiles ≤ b2.processedFiles) ∧
      (b2.completedAt ≠ none ↔ b2.status = UploadStatus.completed) ∧
      (b2.totalFiles ≤ b2.processedFiles → b2.completedAt = some now) := by
  have hmap := findBatch_map_ite batches uploadId
    (fun b =>
      { b with
        processedFiles := batch.processedFiles + 1
        failedFiles := batch.failedFiles + (if isSuccess then 0 else 1)
        status := if batch.totalFiles ≤ batch.processedFiles + 1 then
            UploadStatus.completed else UploadStatus.processing
        completedAt := if batch.totalFiles ≤ batch.processedFiles + 1 then
            some now else b.completedAt })
    (fun b => rfl)
  rw [hfind] at hmap
  unfold updateUploadBatchProgress
  rw [hfind]
  refine ⟨_, _, rfl, hmap, rfl, rfl, ?_, ?_, ?_⟩
  · by_cases hC : batch.totalFiles ≤ batch.processedFiles + 1
    · simp [hC]
    · simp [hC]
  · by_cases hC : batch.totalFiles ≤ batch.processedFiles + 1
    · simp [hC]
    · have hnone : batch.completedAt = none := by
        cases hca : batch.completedAt with
        | none => rfl
        | some t => exact absurd (hpre (by rw [hca]; rfl)) (by omega)
      simp [hC, hnone]
  · intro hle
    have hC : batch.totalFiles ≤ batch.processedFiles + 1 := by
      simpa using hle
    simp [hC]

theorem C2_completion_witness :
    ∃ batches2 b2,
      updateUploadBatchProgress [freshBatch] 5 true 42 = Except.ok batches2 ∧
      findBatch batches2 5 = some b2 ∧
      b2.processedFiles = freshBatch.processedFiles + 1 ∧
      b2.totalFiles = freshBatch.totalFiles ∧
      (b2.status = UploadStatus.completed ↔ b2.totalFiles ≤ b2.processedFiles) ∧
      (b2.completedAt ≠ none ↔ b2.status = UploadStatus.completed) ∧
      (b2.totalFiles ≤ b2.processedFiles → b2.completedAt = some 42) :=
  C2_completion [freshBatch] 5 true 42 freshBatch (by rfl) (by decide)

/-- C3: a second result-update call against a record already in a terminal
state (`success` or `error`) still overwrites the record's stored fields
exactly as any update does, but returns the batch table UNCHANGED — the
tracker is invoked only when the record was `pending` immediately before
the call. -/
theorem C3_terminal_no_renotify (bills : List BillRow) (batches : List UploadBatch)
    (input : UpdateBillResultInput) (now : Int) (nowDate : JSDate) (r : BillRow)
    (hfind : findBillRow bills input.id = some r)
    (hterm : r.extractionStatus ≠ ExtractionStatus.pending) :
    updateBillResult bills batches input now nowDate =
      Except.ok (convertRowToBill (applyBillUpdate r input) nowDate,
        bills.map (fun q => if q.id == input.id then applyBillUpdate q input else q),
        batches) := by
  have hmap := findBillRow_map_ite bills input.id
    (fun q => applyBillUpdate q input) (fun q => rfl)
  rw [hfind] at hmap
  unfold updateBillResult
  rw [hfind]
  dsimp only
  rw [hmap]
  have hwp : (r.extractionStatus == ExtractionStatus.pending) = false := by
    cases hst : r.extractionStatus <;> simp_all
  rw [hwp]
  simp

theorem C3_terminal_no_renotify_witness :
    updateBillResult [c3Row] [c3Batch] c3Input 7 someDate =
      Except.ok (convertRowToBill (applyBillUpdate c3Row c3Input) someDate,
        [c3Row].map (fun q => if q.id == c3Input.id then applyBillUpdate q c3Input else q),
        [c3Batch]) :=
  C3_terminal_no_renotify [c3Row] [c3Batch] c3Input 7 someDate c3Row (by rfl) (by decide)

theorem storeCorrected_spec (bills : List BillRow) (billId : Int) (v : ℚ) (now : JSDate)
    (h : (findBillRow bills billId).isSome) :
    ∃ out bills2,
      storeCorrectedAndReturn bills billId v now = Except.ok (out, bills2) ∧
      out.correctedAmount = some v := by
  obtain ⟨r, hr⟩ := Option.isSome_iff_exists.mp h
  have hmap := findBillRow_map_ite bills billId
    (fun q => { q with correctedAmount := some v }) (fun q => rfl)
  rw [hr] at hmap
  unfold storeCorrectedAndReturn setCorrectedAmount
  dsimp only
  rw [hmap]
  exact ⟨_, _, rfl, rfl⟩

/-- C6 (counterexample): the claim fails on the code at the valid principal
`0`: with a present bill date equal to the reference date, the handler
throws its required-fields error (the JS guard `!bill.total_amount` treats
`0` as missing) instead of returning the principal unchanged. -/
theorem C6_counterexample :
    calculateSelicCorrection [c9Row] [] c9ZeroBill { year := 2024, month := 0, day := 1 } =
      Except.error "Bill date and total amount are required for SELIC correction" := by
  rfl

/-- C6 (amended): for every NONZERO principal (the zero principal trips the
falsy-value guard) with a present origin date at or after the reference
date, the correction returns the principal unchanged as the corrected
amount, applying no correction factor. -/
theorem C6_sameDate (bills : List BillRow) (rateTable : List SelicRate) (bill : Bill)
    (now d : JSDate)
    (hdate : bill.billDate = some d)
    (hp : bill.totalAmount ≠ 0)
    (hge : JSDate.ge d now = true)
    (hrow : (findBillRow bills bill.id).isSome) :
    ∃ out bills2,
      calculateSelicCorrection bills rateTable bill now = Except.ok (out, bills2) ∧
      out.correctedAmount = some bill.totalAmount := by
  unfold calculateSelicCorrection
  rw [hdate]
  dsimp only
  rw [if_neg hp, if_pos hge]
  exact storeCorrected_spec bills bill.id bill.totalAmount now hrow

theorem C6_sameDate_witness :
    ∃ out bills2,
      calculateSelicCorrection [c6Row] [] c6Bill { year := 2024, month := 0, day := 1 } =
        Except.ok (out, bills2) ∧
      out.correctedAmount = some c6Bill.totalAmount :=
  C6_sameDate [c6Row] [] c6Bill { year := 2024, month := 0, day := 1 }
    { year := 2024, month := 0, day := 1 } (by rfl) (by decide) (by rfl) (by rfl)

/-- C9: evaluation of the validation guard at its failing inputs. A bill
with principal `0` and a present bill date is rejected with the
required-fields error (the claim demands it be accepted), while a bill
with the negative principal `-50` passes validation and succeeds (the
claim demands it be rejected). -/
theorem C9_validation :
    calculateSelicCorrection [c9Row] [] c9ZeroBill { year := 2024, month := 0, day := 2 } =
      Except.error "Bill date and total amount are required for SELIC correction" ∧
    (calculateSelicCorrection [c9Row] [] c9NegBill { year := 2024, month := 0, day := 1 }).isOk
      = true := by
  exact ⟨rfl, rfl⟩

/-- C7: evaluation of `uploadZip` at a declared file count of `0`: the
created batch has `status = 'processing'` (not `completed`),
`completed_at = null`, and no bill records are created, so no per-file
outcome can ever complete it; the response also reports `processing`. -/
theorem C7_zero_files :
    (uploadZip [] [] { filename := "empty.zip", fileSize := 1024, fileCount := 0 } 1 1 0).2.1 =
      [{ id := 1, filename := "empty.zip", totalFiles := 0, processedFiles := 0,
         failedFiles := 0, status := UploadStatus.processing, createdAt := 0,
         completedAt := none }] ∧
    (uploadZip [] [] { filename := "empty.zip", fileSize := 1024, fileCount := 0 } 1 1 0).2.2
      = [] ∧
    (uploadZip [] [] { filename := "empty.zip", fileSize := 1024, fileCount := 0 } 1 1 0).1.status
      = "processing" := by
  exact ⟨rfl, rfl, rfl⟩

theorem calcAccum_eval (selicRates : List SelicRate) (s e : JSDate) (n : Nat)
    (hn : stepCount s e = n) (hne : ¬ selicRates.length = 0) :
    calculateAccumulatedCorrection selicRates s e =
      ((List.range n).map (fun k => 1 + monthlyRate selicRates (JSDate.stepN s k))).prod := by
  unfold stepCount at hn
  unfold calculateAccumulatedCorrection
  rw [if_neg hne, corrLoopFuel_eq_prod, one_mul, hn]

/-- C1 (counterexample): the loop of `calculateAccumulatedCorrection` does
not walk months up to but excluding the as-of date's month. From origin
2023-01-05 to as-of 2023-03-10 (origin day-of-month before as-of
day-of-month) with 1 percent in January, February and March, the claimed
walk over January and February gives factor `1.01^2 = 1.0201`, but the
code also multiplies March's rate (stepping 01-05, 02-05, 03-05, all
strictly before 03-10) and returns `1.01^3 = 1.030301`. -/
theorem C1_counterexample :
    calculateAccumulatedCorrection [rateJan23, rateFeb23, rateMar23]
      { year := 2023, month := 0, day := 5 } { year := 2023, month := 2, day := 10 } =
      1030301 / 1000000 ∧
    specMonthWalkFactor [rateJan23, rateFeb23, rateMar23]
      { year := 2023, month := 0, day := 5 } { year := 2023, month := 2, day := 10 } =
      10201 / 10000 ∧
    (1030301 / 1000000 : ℚ) ≠ 10201 / 10000 := by
  refine ⟨?_, ?_, by norm_num⟩
  · rw [calcAccum_eval _ _ _ 3 (by decide) (by decide)]
    have e0 : monthlyRate [rateJan23, rateFeb23, rateMar23]
        (JSDate.stepN { year := 2023, month := 0, day := 5 } 0) = 0.01 := rfl
    have e1 : monthlyRate [rateJan23, rateFeb23, rateMar23]
        (JSDate.stepN { year := 2023, month := 0, day := 5 } 1) = 0.01 := rfl
    have e2 : monthlyRate [rateJan23, rateFeb23, rateMar23]
        (JSDate.stepN { year := 2023, month := 0, day := 5 } 2) = 0.01 := rfl
    rw [show List.range 3 = [0, 1, 2] from rfl]
    simp only [List.map_cons, List.map_nil, List.prod_cons, List.prod_nil, e0, e1, e2]
    norm_num
  · unfold specMonthWalkFactor
    rw [show (JSDate.ymIdx { year := 2023, month := 2, day := 10 } -
      JSDate.ymIdx { year := 2023, month := 0, day := 5 }).toNat = 2 from rfl]
    have e0 : rateOfYmIdx [rateJan23, rateFeb23, rateMar23]
        (JSDate.ymIdx { year := 2023, month := 0, day := 5 } + (0 : Int)) = 0.01 := rfl
    have e1 : rateOfYmIdx [rateJan23, rateFeb23, rateMar23]
        (JSDate.ymIdx { year := 2023, month := 0, day := 5 } + (1 : Int)) = 0.01 := rfl
    rw [show List.range 2 = [0, 1] from rfl]
    simp only [List.map_cons, List.map_nil, List.prod_cons, List.prod_nil,
      Nat.cast_zero, Nat.cast_one, e0, e1]
    norm_num

/-- C1 (amended): with a non-empty rate range, the correction loop starts
at the origin DATE and repeatedly advances it by one whole month,
multiplying a factor (starting at 1) by `(1 + that month's rate)` — a
month missing from the series contributing 0 percent — for as long as the
advanced date stays strictly before the as-of date. The as-of date's month
is therefore also counted whenever the stepped date still precedes the
as-of date within that month (origin day-of-month before as-of
day-of-month), rather than the walk stopping before the as-of month. The
handler returns the principal times this factor, and 1 percent in each of
exactly two traversed months on principal 1000 yields exactly 1020.10. -/
theorem C1_monthWalk (selicRates : List SelicRate) (s e : JSDate)
    (hs : s.Valid) (he : e.Valid) (hne : ¬ selicRates.length = 0) :
    (∀ k < stepCount s e, JSDate.lt (JSDate.stepN s k) e = true) ∧
    JSDate.lt (JSDate.stepN s (stepCount s e)) e = false ∧
    calculateAccumulatedCorrection selicRates s e =
      ((List.range (stepCount s e)).map
        (fun k => 1 + monthlyRate selicRates (JSDate.stepN s k))).prod ∧
    (∀ (bills : List BillRow) (rateTable : List SelicRate) (bill : Bill) (now d : JSDate),
      bill.billDate = some d → bill.totalAmount ≠ 0 → JSDate.ge d now = false →
      ¬ (getSelicRatesForPeriod rateTable d now).length = 0 →
      (findBillRow bills bill.id).isSome →
      ∃ out bills2,
        calculateSelicCorrection bills rateTable bill now = Except.ok (out, bills2) ∧
        out.correctedAmount = some (bill.totalAmount *
          calculateAccumulatedCorrection (getSelicRatesForPeriod rateTable d now) d now)) ∧
    (1000 : ℚ) * calculateAccumulatedCorrection [rateJan23, rateFeb23]
      { year := 2023, month := 0, day := 15 } { year := 2023, month := 2, day := 15 } =
      10201 / 10 := by
  obtain ⟨h1, h2⟩ := stepCountFuel_spec e he (loopFuel s e) s hs (le_refl _)
  refine ⟨h1, h2, calcAccum_eval selicRates s e (stepCount s e) rfl hne, ?_, ?_⟩
  · intro bills rateTable bill now d hdate hp hgeF hlen hrow
    unfold calculateSelicCorrection
    rw [hdate]
    dsimp only
    rw [if_neg hp, if_neg (by simp [hgeF]), if_neg hlen]
    exact storeCorrected_spec bills bill.id _ now hrow
  · rw [calcAccum_eval _ _ _ 2 (by decide) (by decide)]
    have e0 : monthlyRate [rateJan23, rateFeb23]
        (JSDate.stepN { year := 2023, month := 0, day := 15 } 0) = 0.01 := rfl
    have e1 : monthlyRate [rateJan23, rateFeb23]
        (JSDate.stepN { year := 2023, month := 0, day := 15 } 1) = 0.01 := rfl
    rw [show List.range 2 = [0, 1] from rfl]
    simp only [List.map_cons, List.map_nil, List.prod_cons, List.prod_nil, e0, e1]
    norm_num

theorem C1_monthWalk_witness :
    calculateAccumulatedCorrection [rateJan23, rateFeb23]
      { year := 2023, month := 0, day := 15 } { year := 2023, month := 2, day := 15 } =
      ((List.range (stepCount { year := 2023, month := 0, day := 15 }
          { year := 2023, month := 2, day := 15 })).map
        (fun k => 1 + monthlyRate [rateJan23, rateFeb23]
          (JSDate.stepN { year := 2023, month := 0, day := 15 } k))).prod :=
  (C1_monthWalk [rateJan23, rateFeb23] { year := 2023, month := 0, day := 15 }
    { year := 2023, month := 2, day := 15 } (by decide) (by decide) (by decide)).2.2.1

theorem filter_proj_congr (p : SelicRate → Bool)
    (hp : ∀ r1 r2 : SelicRate, r1.date = r2.date → r1.rate = r2.rate → p r1 = p r2) :
    ∀ l1 l2 : List SelicRate, l1.map rateProj = l2.map rateProj →
      (l1.filter p).map rateProj = (l2.filter p).map rateProj := by
  intro l1
  induction l1 with
  | nil =>
    intro l2 h
    cases l2 with
    | nil => rfl
    | cons b t2 => simp at h
  | cons a t ih =>
    intro l2 h
    cases l2 with
    | nil => simp at h
    | cons b t2 =>
      simp only [List.map_cons, List.cons.injEq] at h
      obtain ⟨hab, ht⟩ := h
      have hd : a.date = b.date := congrArg Prod.fst hab
      have hv : a.rate = b.rate := congrArg Prod.snd hab
      rw [List.filter_cons, List.filter_cons, hp a b hd hv]
      cases hf : p b with
      | false => exact ih t2 ht
      | true =>
        simp only [if_pos rfl, List.map_cons]
        exact List.cons_eq_cons.mpr ⟨hab, ih t2 ht⟩

theorem insertByDate_proj :
    ∀ (l1 l2 : List SelicRate) (r1 r2 : SelicRate), rateProj r1 = rateProj r2 →
      l1.map rateProj = l2.map rateProj →
      (insertByDate r1 l1).map rateProj = (insertByDate r2 l2).map rateProj := by
  intro l1
  induction l1 with
  | nil =>
    intro l2 r1 r2 hr h
    cases l2 with
    | nil => simpa [insertByDate] using hr
    | cons b t2 => simp at h
  | cons a t ih =>
    intro l2 r1 r2 hr h
    cases l2 with
    | nil => simp at h
    | cons b t2 =>
      simp only [List.map_cons, List.cons.injEq] at h
      obtain ⟨hab, ht⟩ := h
      have hd : a.date = b.date := congrArg Prod.fst (by exact hab)
      have hrd : r1.date = r2.date := congrArg Prod.fst hr
      unfold insertByDate
      rw [hd, hrd]
      by_cases hc : b.date.key ≤ r2.date.key
      · rw [if_pos hc, if_pos hc, List.map_cons, List.map_cons]
        exact List.cons_eq_cons.mpr ⟨hab, ih t2 r1 r2 hr ht⟩
      · rw [if_neg hc, if_neg hc, List.map_cons, List.map_cons,
          List.map_cons, List.map_cons]
        exact List.cons_eq_cons.mpr ⟨hr, List.cons_eq_cons.mpr ⟨hab, ht⟩⟩

theorem sortByDate_proj :
    ∀ l1 l2 : List SelicRate, l1.map rateProj = l2.map rateProj →
      (sortByDate l1).map rateProj = (sortByDate l2).map rateProj := by
  intro l1
  induction l1 with
  | nil =>
    intro l2 h
    cases l2 with
    | nil => rfl
    | cons b t2 => simp at h
  | cons a t ih =>
    intro l2 h
    cases l2 with
    | nil => simp at h
    | cons b t2 =>
      simp only [List.map_cons, List.cons.injEq] at h
      obtain ⟨hab, ht⟩ := h
      unfold sortByDate
      simp only [List.foldr_cons]
      exact insertByDate_proj _ _ a b hab (ih t2 ht)

theorem monthlyRate_proj (l1 l2 : List SelicRate) (d : JSDate)
    (h : l1.map rateProj = l2.map rateProj) :
    monthlyRate l1 d = monthlyRate l2 d := by
  have hf := filter_proj_congr
    (fun r => r.date.year == d.year && r.date.month == d.month)
    (fun r1 r2 hd hv => by simp only [hd]) l1 l2 h
  unfold monthlyRate
  have hlast := congrArg List.getLast? hf
  rw [List.getLast?_map, List.getLast?_map] at hlast
  cases h1 : (l1.filter (fun r => r.date.year == d.year && r.date.month == d.month)).getLast? with
  | none =>
    cases h2 : (l2.filter (fun r => r.date.year == d.year && r.date.month == d.month)).getLast? with
    | none => rfl
    | some r2 => rw [h1, h2] at hlast; simp at hlast
  | some r1 =>
    cases h2 : (l2.filter (fun r => r.date.year == d.year && r.date.month == d.month)).getLast? with
    | none => rw [h1, h2] at hlast; simp at hlast
    | some r2 =>
      rw [h1, h2] at hlast
      simp only [Option.map_some'] at hlast
      exact congrArg Prod.snd (Option.some.inj hlast)

theorem calcAccum_proj (l1 l2 : List SelicRate) (s e : JSDate)
    (h : l1.map rateProj = l2.map rateProj) :
    calculateAccumulatedCorrection l1 s e = calculateAccumulatedCorrection l2 s e := by
  have hlen : l1.length = l2.length := by
    have := congrArg List.length h
    simpa using this
  have hmr : monthlyRate l1 = monthlyRate l2 :=
    funext (fun d => monthlyRate_proj l1 l2 d h)
  unfold calculateAccumulatedCorrection
  rw [hlen, hmr]

theorem getSelicRatesForPeriod_proj (t1 t2 : List SelicRate) (s e : JSDate)
    (h : t1.map rateProj = t2.map rateProj) :
    (getSelicRatesForPeriod t1 s e).map rateProj =
      (getSelicRatesForPeriod t2 s e).map rateProj := by
  unfold getSelicRatesForPeriod
  exact sortByDate_proj _ _ (filter_proj_congr
    (fun r => JSDate.le s r.date && JSDate.le r.date e)
    (fun r1 r2 hd hv => by simp only [hd]) t1 t2 h)

/-- C8: the corrected amount is a pure, deterministic function of the
principal, the bill (origin) date, the (date, rate) content of the rate
series, and the explicitly passed clock value `now`: two runs over rate
tables with the same (date, rate) content — regardless of row ids and
creation timestamps — and bills agreeing on principal and bill date yield
bit-for-bit the same corrected amount, whatever else their bill tables
hold. -/
theorem C8_determinism (bills1 bills2 : List BillRow) (rates1 rates2 : List SelicRate)
    (bill1 bill2 : Bill) (now d : JSDate)
    (hd1 : bill1.billDate = some d) (hd2 : bill2.billDate = some d)
    (hp : bill1.totalAmount = bill2.totalAmount) (hp0 : ¬ bill1.totalAmount = 0)
    (hr : rates1.map rateProj = rates2.map rateProj)
    (hrow1 : (findBillRow bills1 bill1.id).isSome)
    (hrow2 : (findBillRow bills2 bill2.id).isSome) :
    ∃ out1 bills1b out2 bills2b,
      calculateSelicCorrection bills1 rates1 bill1 now = Except.ok (out1, bills1b) ∧
      calculateSelicCorrection bills2 rates2 bill2 now = Except.ok (out2, bills2b) ∧
      out1.correctedAmount = out2.correctedAmount := by
  have hp0b : ¬ bill2.totalAmount = 0 := by rw [← hp]; exact hp0
  have hsel := getSelicRatesForPeriod_proj rates1 rates2 d now hr
  have hlen : (getSelicRatesForPeriod rates1 d now).length =
      (getSelicRatesForPeriod rates2 d now).length := by
    have := congrArg List.length hsel
    simpa using this
  have hfac := calcAccum_proj (getSelicRatesForPeriod rates1 d now)
    (getSelicRatesForPeriod rates2 d now) d now hsel
  unfold calculateSelicCorrection
  rw [hd1, hd2]
  dsimp only
  rw [if_neg hp0, if_neg hp0b]
  by_cases hge : JSDate.ge d now = true
  · rw [if_pos hge, if_pos hge]
    obtain ⟨o1, b1, h1, hc1⟩ := storeCorrected_spec bills1 bill1.id bill1.totalAmount now hrow1
    obtain ⟨o2, b2, h2, hc2⟩ := storeCorrected_spec bills2 bill2.id bill2.totalAmount now hrow2
    exact ⟨o1, b1, o2, b2, h1, h2, by rw [hc1, hc2, hp]⟩
  · rw [if_neg hge, if_neg hge]
    by_cases hl : (getSelicRatesForPeriod rates1 d now).length = 0
    · rw [if_pos hl, if_pos (hlen ▸ hl)]
      obtain ⟨o1, b1, h1, hc1⟩ := storeCorrected_spec bills1 bill1.id bill1.totalAmount now hrow1
      obtain ⟨o2, b2, h2, hc2⟩ := storeCorrected_spec bills2 bill2.id bill2.totalAmount now hrow2
      exact ⟨o1, b1, o2, b2, h1, h2, by rw [hc1, hc2, hp]⟩
    · rw [if_neg hl, if_neg (hlen ▸ hl)]
      obtain ⟨o1, b1, h1, hc1⟩ := storeCorrected_spec bills1 bill1.id
        (bill1.totalAmount * calculateAccumulatedCorrection
          (getSelicRatesForPeriod rates1 d now) d now) now hrow1
      obtain ⟨o2, b2, h2, hc2⟩ := storeCorrected_spec bills2 bill2.id
        (bill2.totalAmount * calculateAccumulatedCorrection
          (getSelicRatesForPeriod rates2 d now) d now) now hrow2
      exact ⟨o1, b1, o2, b2, h1, h2, by rw [hc1, hc2, hp, hfac]⟩

theorem C8_determinism_witness :
    ∃ out1 bills1b out2 bills2b,
      calculateSelicCorrection [c6Row] [rateJan23] c6Bill
        { year := 2024, month := 0, day := 1 } = Except.ok (out1, bills1b) ∧
      calculateSelicCorrection [c9Row, c8Row2] [rateJan23Alt] c8Bill2
        { year := 2024, month := 0, day := 1 } = Except.ok (out2, bills2b) ∧
      out1.correctedAmount = out2.correctedAmount :=
  C8_determinism [c6Row] [c9Row, c8Row2] [rateJan23] [rateJan23Alt] c6Bill c8Bill2
    { year := 2024, month := 0, day := 1 } { year := 2024, month := 0, day := 1 }
    (by rfl) (by rfl) (by rfl) (by norm_num [c6Bill]) (by rfl) (by rfl) (by rfl)

theorem map_ite_append_fresh (bills : List BillRow) (x : BillRow) (n : Int)
    (g : BillRow → BillRow) (hfresh : ∀ r ∈ bills, r.id ≠ n) (hx : x.id = n) :
    (bills ++ [x]).map (fun r => if r.id == n then g r else r) = bills ++ [g x] := by
  rw [List.map_append]
  have h1 : bills.map (fun r => if r.id == n then g r else r) = bills := by
    have hcong : ∀ r ∈ bills, (if r.id == n then g r else r) = id r := by
      intro r hr
      rw [if_neg (by simp [hfresh r hr])]
      rfl
    rw [List.map_congr_left hcong, List.map_id]
  have h2 : [x].map (fun r => if r.id == n then g r else r) = [g x] := by
    simp [hx]
  rw [h1, h2]

/-- C10: one call to `processBill` — whether the simulated extraction
succeeds, fails, or the file type is unsupported — leaves the
`upload_batches` table (and so every field of the parent batch) exactly as
it was, and only appends one new bill record for the parent batch to the
bill table, updating that record in place; the batch progress tracker is
never invoked. When the parent batch does not exist, nothing at all is
written. -/
theorem C10_frame (batches : List UploadBatch) (bills : List BillRow)
    (input : ProcessBillInput) (nextBillId : Int) (now : Int) (nowDate : JSDate)
    (hfresh : ∀ r ∈ bills, r.id ≠ nextBillId) :
    (processBill batches bills input nextBillId now nowDate).2.1 = batches ∧
    ((findBatch batches input.uploadId).isSome →
      ∃ row : BillRow,
        (processBill batches bills input nextBillId now nowDate).2.2 = bills ++ [row] ∧
        row.uploadId = input.uploadId ∧ row.id = nextBillId) ∧
    (findBatch batches input.uploadId = none →
      (processBill batches bills input nextBillId now nowDate).2.2 = bills) := by
  cases hfb : findBatch batches input.uploadId with
  | none =>
    unfold processBill
    rw [hfb]
    exact ⟨rfl, fun h => absurd h (by simp), fun _ => rfl⟩
  | some b =>
    unfold processBill
    rw [hfb]
    dsimp only
    refine ⟨?_, ?_, ?_⟩
    · split
      · split <;> rfl
      · split <;> rfl
    · intro _
      split
      · rename_i ed hed
        refine
          ⟨{ id := nextBillId
             filename := input.filename
             uploadId := input.uploadId
             totalAmount := some ed.totalAmount
             energyConsumption := some ed.energyConsumption
             billDate := some ed.billDate
             correctedAmount := none
             extractionStatus := ExtractionStatus.success
             errorMessage := none
             createdAt := now }, ?_, rfl, rfl⟩
        split <;>
          exact map_ite_append_fresh bills _ nextBillId _ hfresh rfl
      · rename_i msg hmsg
        refine
          ⟨{ id := nextBillId
             filename := input.filename
             uploadId := input.uploadId
             totalAmount := none
             energyConsumption := none
             billDate := none
             correctedAmount := none
             extractionStatus := ExtractionStatus.error
             errorMessage := some msg
             createdAt := now }, ?_, rfl, rfl⟩
        split <;>
          exact map_ite_append_fresh bills _ nextBillId _ hfresh rfl
    · intro h
      exact Option.noConfusion h

theorem C10_frame_witness :
    (processBill [c10Batch] []
      { uploadId := 1, filename := "x.pdf", fileBuffer := "hello" } 7 0 someDate).2.1 =
      [c10Batch] ∧
    ((findBatch [c10Batch] (1 : Int)).isSome →
      ∃ row : BillRow,
        (processBill [c10Batch] []
          { uploadId := 1, filename := "x.pdf", fileBuffer := "hello" } 7 0 someDate).2.2 =
          [] ++ [row] ∧
        row.uploadId = 1 ∧ row.id = 7) ∧
    (findBatch [c10Batch] (1 : Int) = none →
      (processBill [c10Batch] []
        { uploadId := 1, filename := "x.pdf", fileBuffer := "hello" } 7 0 someDate).2.2 = []) :=
  C10_frame [c10Batch] []
    { uploadId := 1, filename := "x.pdf", fileBuffer := "hello" } 7 0 someDate
    (by intro r hr; simp at hr)

theorem foldl_add_sum {α : Type} (f : α → ℚ) :
    ∀ (l : List α) (a : ℚ), l.foldl (fun s x => s + f x) a = a + (l.map f).sum := by
  intro l
  induction l with
  | nil => intro a; simp
  | cons x t ih =>
    intro a
    simp only [List.foldl_cons, List.map_cons, List.sum_cons, ih]
    ring

theorem report_filter_len (rows : List BillRow) (nowDate : JSDate)
    (p : Bill → Bool) (q : BillRow → Bool)
    (hpq : ∀ r : BillRow, p (convertRowToBill r nowDate) = q r) :
    ((rows.map (fun r => convertRowToBill r nowDate)).filter p).length =
      (rows.filter q).length := by
  rw [List.filter_map]
  simp only [Function.comp_def]
  rw [List.filter_congr (fun r _ => hpq r)]
  exact List.length_map _ _

theorem report_foldl_eval (rows : List BillRow) (nowDate : JSDate)
    (f : Bill → ℚ) (g : BillRow → ℚ)
    (hfg : ∀ r : BillRow, f (convertRowToBill r nowDate) = g r)
    (p : Bill → Bool) (q : BillRow → Bool)
    (hpq : ∀ r : BillRow, p (convertRowToBill r nowDate) = q r) :
    ((rows.map (fun r => convertRowToBill r nowDate)).filter p).foldl
      (fun sum b => sum + f b) 0 = ((rows.filter q).map g).sum := by
  rw [List.filter_map]
  simp only [Function.comp_def]
  rw [List.filter_congr (fun r _ => hpq r)]
  rw [foldl_add_sum, zero_add, List.map_map]
  exact congrArg List.sum (List.map_congr_left (fun r _ => by
    simp only [Function.comp_def]
    exact hfg r))

/-- C5 (counterexample): the claim fails on the code when a success
record's stored `corrected_amount` is `0`: the claimed corrected total
(fall back to `total_amount` only when `corrected_amount` is ABSENT) is
`0`, but the code's `corrected_amount || total_amount || 0` treats the
present `0` as falsy and contributes `total_amount = 50`. -/
theorem C5_counterexample :
    (generateReport [c5Batch] [c5ZeroRow] 7 someDate).toOption.map
      (fun rep => rep.summary.totalCorrectedAmount) = some 50 ∧
    specTotalCorrected [c5ZeroRow] = 0 ∧ (50 : ℚ) ≠ 0 := by
  refine ⟨?_, ?_, by norm_num⟩
  · show some ((0 : ℚ) + jsOrOptQ (some 0) (jsOrQ 50 0)) = some 50
    norm_num [jsOrOptQ, jsOrQ]
  · show ((some (0 : ℚ)).getD ((some (50 : ℚ)).getD 0) + 0) = 0
    norm_num

/-- C5 (amended): for every existing batch the report summary counts all
the batch's records in `total_bills`, counts `success` and `error` records
in `successful_extractions` / `failed_extractions` (pending counts toward
neither), and sums the monetary and consumption totals over `success`
records only — the corrected total using `corrected_amount` and falling
back to `total_amount` when `corrected_amount` is absent OR ZERO (the
source's falsy-value fallback). -/
theorem C5_summary (batches : List UploadBatch) (bills : List BillRow) (uploadId : Int)
    (nowDate : JSDate) (b : UploadBatch)
    (hfind : findBatch batches uploadId = some b) :
    ∃ rep, generateReport batches bills uploadId nowDate = Except.ok rep ∧
      rep.summary.totalBills = (bills.filter (fun r => r.uploadId == uploadId)).length ∧
      rep.summary.successfulExtractions =
        ((bills.filter (fun r => r.uploadId == uploadId)).filter
          (fun r => r.extractionStatus == ExtractionStatus.success)).length ∧
      rep.summary.failedExtractions =
        ((bills.filter (fun r => r.uploadId == uploadId)).filter
          (fun r => r.extractionStatus == ExtractionStatus.error)).length ∧
      rep.summary.totalOriginalAmount =
        (((bills.filter (fun r => r.uploadId == uploadId)).filter
          (fun r => r.extractionStatus == ExtractionStatus.success)).map
          (fun r => r.totalAmount.getD 0)).sum ∧
      rep.summary.totalCorrectedAmount =
        (((bills.filter (fun r => r.uploadId == uploadId)).filter
          (fun r => r.extractionStatus == ExtractionStatus.success)).map
          (fun r => jsOrOptQ r.correctedAmount (r.totalAmount.getD 0))).sum ∧
      rep.summary.totalEnergyConsumption =
        (((bills.filter (fun r => r.uploadId == uploadId)).filter
          (fun r => r.extractionStatus == ExtractionStatus.success)).map
          (fun r => r.energyConsumption.getD 0)).sum := by
  unfold generateReport
  rw [hfind]
  dsimp only
  refine ⟨_, rfl, ?_, ?_, ?_, ?_, ?_, ?_⟩
  · exact (List.length_map _ _)
  · exact report_filter_len _ nowDate _ _ (fun r => rfl)
  · exact report_filter_len _ nowDate _ _ (fun r => rfl)
  · have h := report_foldl_eval (bills.filter (fun r => r.uploadId == uploadId)) nowDate
      (fun bill => jsOrQ bill.totalAmount 0) (fun r => r.totalAmount.getD 0)
      (fun r => by
        show jsOrQ (r.totalAmount.getD 0) 0 = r.totalAmount.getD 0
        unfold jsOrQ
        split <;> simp_all)
      (fun bill => bill.extractionStatus == ExtractionStatus.success)
      (fun r => r.extractionStatus == ExtractionStatus.success) (fun r => rfl)
    exact h
  · exact report_foldl_eval (bills.filter (fun r => r.uploadId == uploadId)) nowDate
      (fun bill => jsOrOptQ bill.correctedAmount (jsOrQ bill.totalAmount 0))
      (fun r => jsOrOptQ r.correctedAmount (r.totalAmount.getD 0))
      (fun r => by
        show jsOrOptQ r.correctedAmount (jsOrQ (r.totalAmount.getD 0) 0) =
          jsOrOptQ r.correctedAmount (r.totalAmount.getD 0)
        have : jsOrQ (r.totalAmount.getD 0) 0 = r.totalAmount.getD 0 := by
          unfold jsOrQ
          split <;> simp_all
        rw [this])
      (fun bill => bill.extractionStatus == ExtractionStatus.success)
      (fun r => r.extractionStatus == ExtractionStatus.success) (fun r => rfl)
  · exact report_foldl_eval (bills.filter (fun r => r.uploadId == uploadId)) nowDate
      (fun bill => jsOrQ bill.energyConsumption 0) (fun r => r.energyConsumption.getD 0)
      (fun r => by
        show jsOrQ (r.energyConsumption.getD 0) 0 = r.energyConsumption.getD 0
        unfold jsOrQ
        split <;> simp_all)
      (fun bill => bill.extractionStatus == ExtractionStatus.success)
      (fun r => r.extractionStatus == ExtractionStatus.success) (fun r => rfl)

theorem selicLineStep_classify (pd : String → Option JSDate) (pr : String → Option ℚ)
    (st : LoadState) (line : String) :
    selicLineStep pd pr st line =
      match classifyLine pd pr st.existingDates line with
      | LineClass.malformed =>
        { st with result := { st.result with errors := st.result.errors + 1 } }
      | LineClass.dup =>
        { st with result := { st.result with skipped := st.result.skipped + 1 } }
      | LineClass.fresh date rate =>
        { result := { st.result with loaded := st.result.loaded + 1 }
          existingDates := st.existingDates ++ [date]
          inserted := st.inserted ++ [(date, rate)] } := by
  unfold selicLineStep classifyLine
  dsimp only
  split
  next h => rfl
  next h =>
    cases hd : pd ((((jsSplit line ',').map jsTrim)[0]?).getD "") with
    | none => rfl
    | some date =>
      cases hr : pr ((((jsSplit line ',').map jsTrim)[1]?).getD "") with
      | none => rfl
      | some rate =>
        by_cases hc : date ∈ st.existingDates
        · simp [hd, hr, hc]
        · simp [hd, hr, hc]

theorem foldl_specLoadRec (pd : String → Option JSDate) (pr : String → Option ℚ) :
    ∀ (lines : List String) (st : LoadState),
      lines.foldl (selicLineStep pd pr) st =
        { result :=
            { loaded := st.result.loaded + (specLoadRec pd pr lines st.existingDates).1.loaded
              skipped := st.result.skipped + (specLoadRec pd pr lines st.existingDates).1.skipped
              errors := st.result.errors + (specLoadRec pd pr lines st.existingDates).1.errors }
          existingDates :=
            st.existingDates ++ ((specLoadRec pd pr lines st.existingDates).2.map Prod.fst)
          inserted := st.inserted ++ (specLoadRec pd pr lines st.existingDates).2 } := by
  intro lines
  induction lines with
  | nil => intro st; simp [specLoadRec]
  | cons line rest ih =>
    intro st
    rw [List.foldl_cons, selicLineStep_classify]
    cases hcl : classifyLine pd pr st.existingDates line with
    | malformed =>
      rw [ih]
      simp [specLoadRec, hcl, List.append_assoc]
      try omega
    | dup =>
      rw [ih]
      simp [specLoadRec, hcl, List.append_assoc]
      try omega
    | fresh date rate =>
      rw [ih]
      simp [specLoadRec, hcl, List.append_assoc]
      try omega

theorem specLoadRec_total (pd : String → Option JSDate) (pr : String → Option ℚ) :
    ∀ (lines : List String) (keys : List JSDate),
      (specLoadRec pd pr lines keys).1.loaded + (specLoadRec pd pr lines keys).1.skipped +
        (specLoadRec pd pr lines keys).1.errors = lines.length := by
  intro lines
  induction lines with
  | nil => intro keys; rfl
  | cons line rest ih =>
    intro keys
    cases hcl : classifyLine pd pr keys line with
    | malformed =>
      have h := ih keys
      simp only [specLoadRec, hcl, List.length_cons]
      omega
    | dup =>
      have h := ih keys
      simp only [specLoadRec, hcl, List.length_cons]
      omega
    | fresh date rate =>
      have h := ih (keys ++ [date])
      simp only [specLoadRec, hcl, List.length_cons]
      omega

/-- C4 (counterexample): the claim fails on the code for a line whose
calendar MONTH is already present but whose exact date is not. The table
holds a January 2023 entry (same month index as the incoming line dated
2023-01-15), yet the loader reports the line as loaded — not skipped — and
inserts it; only the malformed third line counts as an error. -/
theorem C4_counterexample :
    loadSelicData pdC4 prC4 [rateJan23] "date,rate\n2023-01-15,0.01\nbad-line\n" =
      ({ loaded := 1, skipped := 0, errors := 1 },
        [({ year := 2023, month := 0, day := 15 }, 0.01)]) ∧
    JSDate.ymIdx rateJan23.date = JSDate.ymIdx { year := 2023, month := 0, day := 15 } := by
  exact ⟨rfl, rfl⟩

/-- C4 (amended): the bulk loader processes each data line independently
and never aborts on partial bad data: a line that fails to parse as a
valid date or numeric rate (or lacks a column) is counted as an error and
skipped, a line whose EXACT calendar date (not merely its month) is
already present is counted as skipped and not inserted, and any other line
is inserted and counted as loaded — so the three counters always sum to
the number of data lines, and an input with one well-formed line, one line
duplicating an already-present date and one malformed line reports
`loaded=1, skipped=1, errors=1`. -/
theorem C4_loader :
    (∀ (parseDate : String → Option JSDate) (parseRate : String → Option ℚ)
        (rateTable : List SelicRate) (csvContent : String),
      loadSelicData parseDate parseRate rateTable csvContent =
        specLoadRec parseDate parseRate (selicDataLines csvContent)
          (rateTable.map (fun r => r.date))) ∧
    (∀ (parseDate : String → Option JSDate) (parseRate : String → Option ℚ)
        (rateTable : List SelicRate) (csvContent : String),
      (loadSelicData parseDate parseRate rateTable csvContent).1.loaded +
        (loadSelicData parseDate parseRate rateTable csvContent).1.skipped +
        (loadSelicData parseDate parseRate rateTable csvContent).1.errors =
        (selicDataLines csvContent).length) ∧
    loadSelicData pdC4 prC4 [rateJan23]
      "date,rate\n2023-02-01,0.01\n2023-01-01,0.02\nbad-line\n" =
      ({ loaded := 1, skipped := 1, errors := 1 },
        [({ year := 2023, month := 1, day := 1 }, 0.01)]) := by
  have h1 : ∀ (parseDate : String → Option JSDate) (parseRate : String → Option ℚ)
      (rateTable : List SelicRate) (csvContent : String),
      loadSelicData parseDate parseRate rateTable csvContent =
        specLoadRec parseDate parseRate (selicDataLines csvContent)
          (rateTable.map (fun r => r.date)) := by
    intro parseDate parseRate rateTable csvContent
    unfold loadSelicData
    dsimp only
    rw [foldl_specLoadRec]
    simp
  refine ⟨h1, ?_, rfl⟩
  intro parseDate parseRate rateTable csvContent
  rw [h1 parseDate parseRate rateTable csvContent]
  exact specLoadRec_total parseDate parseRate _ _

theorem C5_summary_witness :
    ∃ rep, generateReport [c5Batch] [c5ZeroRow] 7 someDate = Except.ok rep ∧
      rep.summary.totalBills = ([c5ZeroRow].filter (fun r => r.uploadId == 7)).length ∧
      rep.summary.successfulExtractions =
        (([c5ZeroRow].filter (fun r => r.uploadId == 7)).filter
          (fun r => r.extractionStatus == ExtractionStatus.success)).length ∧
      rep.summary.failedExtractions =
        (([c5ZeroRow].filter (fun r => r.uploadId == 7)).filter
          (fun r => r.extractionStatus == ExtractionStatus.error)).length ∧
      rep.summary.totalOriginalAmount =
        ((([c5ZeroRow].filter (fun r => r.uploadId == 7)).filter
          (fun r => r.extractionStatus == ExtractionStatus.success)).map
          (fun r => r.totalAmount.getD 0)).sum ∧
      rep.summary.totalCorrectedAmount =
        ((([c5ZeroRow].filter (fun r => r.uploadId == 7)).filter
          (fun r => r.extractionStatus == ExtractionStatus.success)).map
          (fun r => jsOrOptQ r.correctedAmount (r.totalAmount.getD 0))).sum ∧
      rep.summary.totalEnergyConsumption =
        ((([c5ZeroRow].filter (fun r => r.uploadId == 7)).filter
          (fun r => r.extractionStatus == ExtractionStatus.success)).map
          (fun r => r.energyConsumption.getD 0)).sum :=
  C5_summary [c5Batch] [c5ZeroRow] 7 someDate c5Batch (by rfl)
